import Mathlib

/-!
Verification of the ESC (Electronic Speed Controller) motor driver
(`tinygo-escmotor`), a speed/direction control state machine that maps a
normalized speed command onto a calibrated PWM pulse-width band, ramps the
physical pulse gradually, and enforces a direction-change protocol.

The embedding is a shallow one, faithful to the current `types.go` variant
(the one with `float64` speeds, a `Direction` enum and `uint32` pulse widths):

* `uint32` values are `Nat` with explicit `% 2^32` at the operations where
  Go's wrapping arithmetic matters (the ramp loops); pulse-width additions
  and subtractions inside `SetSpeed` are written with the same wrapping
  operators (`wadd`, `wsub`).
* `float64` speeds are modelled as `Rat`; Go's `uint32(float64-expr)`
  conversion truncates toward zero, modelled by `u32trunc` (floor on the
  nonnegative values that occur here).
* `time.Time` is `Option Int` (`none` is Go's zero `time.Time`, detected by
  `IsZero`); `time.Now()` reads an explicit logical clock that each
  `time.Sleep d` advances by `max d 0` (Go's sleep returns at once for a
  nonpositive duration).
* writes to the PWM output (`tinygopwm.SetDuty`) and sleeps are recorded in
  an event trace, so temporal claims about the write sequence and blocking
  can be stated; the loops of `graduallySetPulseWidth` take a fuel
  parameter because the Go loops need not terminate for wrapping steps —
  every theorem about a terminating run holds with any sufficient fuel.
* the PWM hardware, logger and observer callbacks are external
  collaborators; the movement-gate callback's per-call reading is passed as
  an `Option Bool` argument (`none` models a nil `isMovementEnabled`).
-/

set_option maxRecDepth 4000

namespace ESCMotor

/-- Direction enum; the zero value (Go: `DirectionNil`) is the first
constructor, matching the uninitialized `direction` field. -/
inductive Direction where
  | dirNil
  | forward
  | backward
  | stop
deriving DecidableEq, Repr

/-- `InvertedDirection` from the source: Forward and Backward swap, Stop maps
to itself, everything else to the nil sentinel. -/
def Direction.invertedDirection : Direction → Direction
  | Direction.stop => Direction.stop
  | Direction.forward => Direction.backward
  | Direction.backward => Direction.forward
  | Direction.dirNil => Direction.dirNil

/-- Error codes from `errors.go` (the variant used by the current handler). -/
inductive ErrorCode where
  | errNil
  | failedToConfigurePWM
  | zeroFrequency
  | speedOutOfRange
  | nilHandler
  | invalidNeutralPulseWidth
  | invalidMinPulseWidth
  | invalidMaxPulseWidth
  | unknownDirection
  | invalidMaxForwardSpeed
  | invalidMaxBackwardSpeed
  | failedToGetPWMChannel
deriving DecidableEq, Repr

/-- Observable actions of a call: a pulse-width write to the PWM output, or a
`time.Sleep` with the requested (possibly nonpositive) duration. -/
inductive Event where
  | write (pulse : Nat)
  | sleep (d : Int)
deriving DecidableEq, Repr

/-- `2^32`, the modulus of Go's `uint32` arithmetic. -/
def U32 : Nat := 4294967296

/-- Wrapping `uint32` addition. -/
def wadd (a b : Nat) : Nat := (a + b) % U32

/-- Wrapping `uint32` subtraction (`b < 2^32` for the represented values). -/
def wsub (a b : Nat) : Nat := (a + U32 - b) % U32

/-- Go's `uint32(x)` conversion of a nonnegative `float64`: truncation toward
zero, i.e. the floor. -/
def u32trunc (x : Rat) : Nat := (Int.floor x).toNat

/-- The controller state (`DefaultHandler` in `types.go`).  Calibration and
runtime fields as in the source; hardware handles (pwm, channel, pin), the
logger and the observer callback are external and carry no control state. -/
structure DefaultHandler where
  isPolarityInverted : Bool
  minPulseWidth : Nat
  neutralPulseWidth : Nat
  maxPulseWidth : Nat
  speed : Rat
  direction : Direction
  maxForwardSpeed : Rat
  maxBackwardSpeed : Rat
  pulse : Nat
  pulseStep : Option Nat
  lastUpdate : Option Int
  backwardToForwardDelay : Int
  forwardToBackwardDelay : Int
  lastStopTime : Option Int
  period : Nat
  periodDelay : Int
deriving DecidableEq, Repr

/-- One iteration step of the increasing ramp loop: `i += *h.pulseStep` on a
`uint32` counter. -/
def stepUp (s i : Nat) : Nat := wadd i s

/-- One iteration step of the decreasing ramp loop: `i -= *h.pulseStep` on a
`uint32` counter. -/
def stepDown (s i : Nat) : Nat := wsub i s

/-- The increasing loop of `graduallySetPulseWidth`:
`for i := h.pulse; i < pulse; i += *h.pulseStep { SetDuty(i); Sleep(pd);
if i == neutral { lastStop = Now } }`.
Returns the emitted events, the final clock and the final `lastStopTime`.
`fuel` bounds the observed iterations (the Go loop need not terminate). -/
def rampLoopUp (neutral : Nat) (pd : Int) (s target : Nat) :
    Nat → Nat → Int → Option Int → List Event × Int × Option Int
  | 0, _, clock, ls => ([], clock, ls)
  | Nat.succ fuel, i, clock, ls =>
    if i < target then
      let c1 := clock + max pd 0
      let ls1 := if i = neutral then some c1 else ls
      let r := rampLoopUp neutral pd s target fuel (stepUp s i) c1 ls1
      (Event.write i :: Event.sleep pd :: r.1, r.2.1, r.2.2)
    else ([], clock, ls)

/-- The decreasing loop of `graduallySetPulseWidth`:
`for i := h.pulse; i > pulse; i -= *h.pulseStep { ... }`. -/
def rampLoopDown (neutral : Nat) (pd : Int) (s target : Nat) :
    Nat → Nat → Int → Option Int → List Event × Int × Option Int
  | 0, _, clock, ls => ([], clock, ls)
  | Nat.succ fuel, i, clock, ls =>
    if target < i then
      let c1 := clock + max pd 0
      let ls1 := if i = neutral then some c1 else ls
      let r := rampLoopDown neutral pd s target fuel (stepDown s i) c1 ls1
      (Event.write i :: Event.sleep pd :: r.1, r.2.1, r.2.2)
    else ([], clock, ls)

/-- The stepped phase of `graduallySetPulseWidth`: nothing when `pulseStep`
is nil, otherwise the increasing or decreasing loop toward `pulse`. -/
def rampPhase (fuel : Nat) (h : DefaultHandler) (clock : Int) (pulse : Nat) :
    List Event × Int × Option Int :=
  match h.pulseStep with
  | none => ([], clock, h.lastStopTime)
  | some s =>
    if h.pulse < pulse then
      rampLoopUp h.neutralPulseWidth h.periodDelay s pulse fuel h.pulse clock h.lastStopTime
    else if pulse < h.pulse then
      rampLoopDown h.neutralPulseWidth h.periodDelay s pulse fuel h.pulse clock h.lastStopTime
    else ([], clock, h.lastStopTime)

/-- `graduallySetPulseWidth`: the stepped phase, then the exact final write
`SetDuty(pulse)`, `h.pulse = pulse`, and `lastStopTime = Now` whenever the
final pulse is the neutral one. -/
def graduallySetPulseWidth (fuel : Nat) (h : DefaultHandler) (clock : Int)
    (pulse : Nat) : DefaultHandler × Int × List Event :=
  let r := rampPhase fuel h clock pulse
  ({ h with pulse := pulse,
            lastStopTime := if pulse = h.neutralPulseWidth then some r.2.1 else r.2.2 },
   r.2.1, r.1 ++ [Event.write pulse])

/-- The rate limiter at the head of `SetSpeed`'s write branch: if the last
update is recorded and less than one period ago, sleep the remainder. -/
def rateLimitSleep (h : DefaultHandler) (clock : Int) : Int × List Event :=
  match h.lastUpdate with
  | some t =>
    if clock - t < h.periodDelay then
      (clock + max (h.periodDelay - (clock - t)) 0,
       [Event.sleep (h.periodDelay - (clock - t))])
    else (clock, [])
  | none => (clock, [])

/-- The dwell duration: the configured reversal delay minus the time elapsed
since `lastStopTime` when one is recorded, the full delay otherwise. -/
def dwellOf (del : Int) (lastStop : Option Int) (clock : Int) : Int :=
  match lastStop with
  | some t => del - (clock - t)
  | none => del

/-- The reversal-dwell block of `SetSpeed`: entered whenever the commanded
direction is Forward (resp. Backward) and the current direction differs from
it; sleeps the `dwellOf` duration. -/
def reversalDwell (hdir dir : Direction) (b2f f2b : Int) (lastStop : Option Int)
    (clock : Int) : Int × List Event :=
  if hdir ≠ Direction.forward ∧ dir = Direction.forward then
    let d := dwellOf b2f lastStop clock
    (clock + max d 0, [Event.sleep d])
  else if hdir ≠ Direction.backward ∧ dir = Direction.backward then
    let d := dwellOf f2b lastStop clock
    (clock + max d 0, [Event.sleep d])
  else (clock, [])

/-- The `switch direction` of `SetSpeed`: the target pulse and the handler
with the stored signed speed updated.  `none` is the `default` case
(`ErrorCodeESCMotorUnknownDirection`).  On `Stop` the target is the neutral
pulse and only the local `speed` variable is zeroed — the stored `h.speed`
is untouched, exactly as in the source. -/
def computeCommand (h : DefaultHandler) (speed : Rat) (direction : Direction) :
    Option (Nat × DefaultHandler) :=
  match direction with
  | Direction.stop => some (h.neutralPulseWidth, h)
  | Direction.forward =>
      some (wadd h.neutralPulseWidth
              (u32trunc (((wsub h.maxPulseWidth h.neutralPulseWidth : Nat) : Rat) * speed)),
            { h with speed := speed })
  | Direction.backward =>
      some (wsub h.neutralPulseWidth
              (u32trunc (((wsub h.neutralPulseWidth h.minPulseWidth : Nat) : Rat) * speed)),
            { h with speed := -speed })
  | Direction.dirNil => none

/-- Result of a `SetSpeed` call: final handler, final clock, the events of
this call, and the returned error code. -/
structure SetSpeedResult where
  h : DefaultHandler
  clock : Int
  trace : List Event
  err : ErrorCode
deriving DecidableEq, Repr

/-- The write branch of `SetSpeed` (taken when movement is enabled and the
target differs from the current pulse): rate limit, ramp to neutral on a
direction change from a non-Stop direction, reversal dwell, ramp to the
target, then update `direction`, `lastStopTime` and `lastUpdate`. -/
def commandRun (fuel : Nat) (h1 : DefaultHandler) (clock : Int)
    (direction : Direction) (pulse : Nat) : SetSpeedResult :=
  let r0 := rateLimitSleep h1 clock
  let r1 := if h1.direction ≠ direction ∧ h1.direction ≠ Direction.stop
            then graduallySetPulseWidth fuel h1 r0.1 h1.neutralPulseWidth
            else (h1, r0.1, [])
  let r2 := reversalDwell r1.1.direction direction r1.1.backwardToForwardDelay
              r1.1.forwardToBackwardDelay r1.1.lastStopTime r1.2.1
  let r3 := graduallySetPulseWidth fuel r1.1 r2.1 pulse
  ⟨{ r3.1 with
       direction := direction,
       lastStopTime := if direction ≠ Direction.stop then none else r3.1.lastStopTime,
       lastUpdate := some r3.2.1 },
   r3.2.1, r0.2 ++ r1.2.2 ++ r2.2 ++ r3.2.2, ErrorCode.errNil⟩

/-- `SetSpeed` after polarity resolution: range check, direction switch,
movement-gate check (when the gate reports disabled the local target is
overridden to neutral but the write branch is skipped, as in the source),
no-op short-circuit, then the write branch. -/
def setSpeedResolved (fuel : Nat) (h : DefaultHandler) (clock : Int)
    (gate : Option Bool) (speed : Rat) (direction : Direction) : SetSpeedResult :=
  if speed < 0 ∨ 1 < speed then ⟨h, clock, [], ErrorCode.speedOutOfRange⟩
  else
    match computeCommand h speed direction with
    | none => ⟨h, clock, [], ErrorCode.unknownDirection⟩
    | some pc =>
      if gate = some false then ⟨pc.2, clock, [], ErrorCode.errNil⟩
      else if pc.2.pulse ≠ pc.1 then commandRun fuel pc.2 clock direction pc.1
      else ⟨pc.2, clock, [], ErrorCode.errNil⟩

/-- `SetSpeed(speed, direction)`: polarity inversion first, then the resolved
command.  `gate` is the movement-gate reading for this call (`none` models a
nil `isMovementEnabled` callback). -/
def setSpeed (fuel : Nat) (h : DefaultHandler) (clock : Int) (gate : Option Bool)
    (speed : Rat) (direction0 : Direction) : SetSpeedResult :=
  setSpeedResolved fuel h clock gate speed
    (if h.isPolarityInverted then direction0.invertedDirection else direction0)

/-- `GetSpeed`: negated stored speed for Backward, stored speed otherwise. -/
def getSpeed (h : DefaultHandler) : Rat :=
  if h.direction = Direction.backward then -h.speed
  else if h.direction = Direction.forward then h.speed
  else h.speed

/-- `Stop()` = `SetSpeed(0, DirectionStop)`. -/
def stop (fuel : Nat) (h : DefaultHandler) (clock : Int) (gate : Option Bool) :
    SetSpeedResult :=
  setSpeed fuel h clock gate 0 Direction.stop

/-- `SetSpeedForward`: clamp to `[0, maxForwardSpeed]`, then forward. -/
def setSpeedForward (fuel : Nat) (h : DefaultHandler) (clock : Int)
    (gate : Option Bool) (speed : Rat) : SetSpeedResult :=
  let s1 := if speed < 0 then 0 else speed
  let s2 := if s1 > h.maxForwardSpeed then h.maxForwardSpeed else s1
  setSpeed fuel h clock gate s2 Direction.forward

/-- `SetSpeedBackward`: clamp to `[0, maxBackwardSpeed]`, then backward. -/
def setSpeedBackward (fuel : Nat) (h : DefaultHandler) (clock : Int)
    (gate : Option Bool) (speed : Rat) : SetSpeedResult :=
  let s1 := if speed < 0 then 0 else speed
  let s2 := if s1 > h.maxBackwardSpeed then h.maxBackwardSpeed else s1
  setSpeed fuel h clock gate s2 Direction.backward

/-- `NewDefaultHandler`: the calibration validations of the constructor, in
source order (the PWM configuration and channel acquisition are external
hardware calls assumed to succeed), the initial state, and the initial
internal `Stop()`.  Note that `pulseStep` is stored without any check. -/
def newDefaultHandler (frequency : Nat) (minPulseWidth neutralPulseWidth maxPulseWidth : Nat)
    (isPolarityInverted : Bool) (maxForwardSpeed maxBackwardSpeed : Rat)
    (pulseStep : Option Nat) (backwardToForwardDelay forwardToBackwardDelay : Int)
    (fuel : Nat) (clock : Int) (gate : Option Bool) :
    Except ErrorCode (DefaultHandler × Int) :=
  if frequency = 0 then Except.error ErrorCode.zeroFrequency
  else
    let period : Rat := (1000000000 : Rat) / (frequency : Rat)
    let periodU32 : Nat := u32trunc period
    if neutralPulseWidth < minPulseWidth ∨ maxPulseWidth < neutralPulseWidth then
      Except.error ErrorCode.invalidNeutralPulseWidth
    else if minPulseWidth = 0 ∨ neutralPulseWidth ≤ minPulseWidth ∨ periodU32 ≤ minPulseWidth then
      Except.error ErrorCode.invalidMinPulseWidth
    else if maxPulseWidth = 0 ∨ maxPulseWidth ≤ neutralPulseWidth ∨ periodU32 ≤ maxPulseWidth then
      Except.error ErrorCode.invalidMaxPulseWidth
    else if maxForwardSpeed ≤ 0 ∨ 1 < maxForwardSpeed then
      Except.error ErrorCode.invalidMaxForwardSpeed
    else if maxBackwardSpeed ≤ 0 ∨ 1 < maxBackwardSpeed then
      Except.error ErrorCode.invalidMaxBackwardSpeed
    else
      let h0 : DefaultHandler :=
        { isPolarityInverted := isPolarityInverted,
          minPulseWidth := minPulseWidth,
          neutralPulseWidth := neutralPulseWidth,
          maxPulseWidth := maxPulseWidth,
          speed := 0,
          direction := Direction.dirNil,
          maxForwardSpeed := maxForwardSpeed,
          maxBackwardSpeed := maxBackwardSpeed,
          pulse := neutralPulseWidth,
          pulseStep := pulseStep,
          lastUpdate := none,
          backwardToForwardDelay := backwardToForwardDelay,
          forwardToBackwardDelay := forwardToBackwardDelay,
          lastStopTime := none,
          period := periodU32,
          periodDelay := (periodU32 : Int) }
      let r := stop fuel h0 clock gate
      Except.ok (r.h, r.clock)

/-! ### Concrete states and runs used by the analyses

`tHandler` is exactly the state produced by
`newDefaultHandler 1000000 140 150 160 false 1 1 none 100000 100000`
(see `tHandler_constructed`): calibration 140/150/160 µs... at a 1 MHz PWM
(period 1000 ns), no `pulseStep` (direct writes), both reversal delays
100000 ns. -/

/-- A freshly constructed controller with calibration `140 < 150 < 160`. -/
def tHandler : DefaultHandler :=
  { isPolarityInverted := false, minPulseWidth := 140, neutralPulseWidth := 150,
    maxPulseWidth := 160, speed := 0, direction := Direction.dirNil,
    maxForwardSpeed := 1, maxBackwardSpeed := 1, pulse := 150, pulseStep := none,
    lastUpdate := none, backwardToForwardDelay := 100000,
    forwardToBackwardDelay := 100000, lastStopTime := none,
    period := 1000, periodDelay := 1000 }

/-- Run 1: `SetSpeed(0.5, Forward)` on the fresh controller. -/
def tRun1 : SetSpeedResult := setSpeed 9 tHandler 0 none (1/2) Direction.forward

/-- Run 2: `Stop()` right after run 1. -/
def tRun2 : SetSpeedResult := setSpeed 9 tRun1.h tRun1.clock none 0 Direction.stop

/-- Run 3: `SetSpeed(0.5, Forward)` 20 ns after run 2 (the controller has
been at neutral for only a small fraction of the reversal delay). -/
def tRun3 : SetSpeedResult :=
  setSpeed 9 tRun2.h (tRun2.clock + 20) none (1/2) Direction.forward

/-- A backward command on the fresh controller: `SetSpeed(0.5, Backward)`. -/
def tRunB : SetSpeedResult := setSpeed 9 tHandler 0 none (1/2) Direction.backward

/-- `SetSpeed(1.0, Forward)` with the movement gate present and enabled. -/
def tGate1 : SetSpeedResult := setSpeed 9 tHandler 0 (some true) 1 Direction.forward

/-- `SetSpeed(0.5, Forward)` right after `tGate1`, with the movement gate now
reporting disabled. -/
def tGate2 : SetSpeedResult :=
  setSpeed 9 tGate1.h tGate1.clock (some false) (1/2) Direction.forward

/-- `SetSpeed(0.27, Forward)` on the fresh controller (the forward band is
10 wide, so the exact product is 2.7). -/
def tRunC6 : SetSpeedResult := setSpeed 9 tHandler 0 none (27/100) Direction.forward

/-- The fresh controller with a huge `pulseStep` of `2^31 + 5`, accepted
unchecked by the constructor. -/
def tStepHandler : DefaultHandler := { tHandler with pulseStep := some 2147483653 }

/-- `SetSpeed(1.0, Forward)` on `tStepHandler` (ends at pulse 160). -/
def tStepRun1 : SetSpeedResult := setSpeed 9 tStepHandler 0 none 1 Direction.forward

/-- `Stop()` after `tStepRun1`: the decreasing ramp loop `160 → 150` with
step `2^31 + 5` wraps its `uint32` counter. -/
def tStepRun2 : SetSpeedResult :=
  setSpeed 9 tStepRun1.h tStepRun1.clock none 0 Direction.stop

/-- The controller produced by
`newDefaultHandler 50 1400 1500 1600 false 1 1 (some (2^31+50)) 100000 100000`
(a 50 Hz PWM, calibration `1400 < 1500 < 1600`, `pulseStep = 2147483698`). -/
def tWrapHandler : DefaultHandler :=
  { isPolarityInverted := false, minPulseWidth := 1400, neutralPulseWidth := 1500,
    maxPulseWidth := 1600, speed := 0, direction := Direction.dirNil,
    maxForwardSpeed := 1, maxBackwardSpeed := 1, pulse := 1500,
    pulseStep := some 2147483698, lastUpdate := none,
    backwardToForwardDelay := 100000, forwardToBackwardDelay := 100000,
    lastStopTime := none, period := 20000000, periodDelay := 20000000 }

/-- `SetSpeed(1.0, Forward)` on `tWrapHandler` (ends at pulse 1600). -/
def tWrapRun1 : SetSpeedResult := setSpeed 9 tWrapHandler 0 none 1 Direction.forward

/-- `Stop()` after `tWrapRun1`: the decreasing ramp loop `1600 → 1500` with
step `2^31 + 50` wraps its `uint32` counter and writes `2147485198`. -/
def tWrapRun2 : SetSpeedResult :=
  setSpeed 9 tWrapRun1.h tWrapRun1.clock none 0 Direction.stop

/-- The configured reversal delay for the direction being entered:
`backwardToForwardDelay` when entering Forward, `forwardToBackwardDelay`
when entering Backward. -/
def delayFor (h : DefaultHandler) (dir : Direction) : Int :=
  if dir = Direction.forward then h.backwardToForwardDelay
  else h.forwardToBackwardDelay

/-- `neutralBefore n P l` says that every write event in `l` whose pulse
satisfies `P` (a "far side of neutral" predicate) is strictly preceded in
`l` by a write of the neutral pulse `n`. -/
def neutralBefore (n : Nat) (P : Nat → Prop) (l : List Event) : Prop :=
  ∀ (i w : Nat), l[i]? = some (Event.write w) → P w →
    ∃ j : Nat, j < i ∧ l[j]? = some (Event.write n)

/-! ### Helper lemmas -/

/-- `tHandler` is reachable: it is exactly what the constructor returns. -/
theorem tHandler_constructed :
    newDefaultHandler 1000000 140 150 160 false 1 1 none 100000 100000 9 0 none =
      Except.ok (tHandler, 0) := by
  with_unfolding_all rfl

/-- Truncation bound: for `0 ≤ s ≤ 1` the truncated product is at most `c`. -/
theorem u32trunc_mul_le (c : Nat) {s : Rat} (hs1 : s ≤ 1) :
    u32trunc ((c : Rat) * s) ≤ c := by
  have hx : ((c : Rat) * s) ≤ (c : Rat) :=
    mul_le_of_le_one_right (by positivity) hs1
  have hf := Int.floor_mono hx
  rw [Int.floor_natCast] at hf
  exact Int.toNat_le.mpr hf

/-- The truncated product is monotone in the speed. -/
theorem u32trunc_mul_mono (c : Nat) {s t : Rat} (hst : s ≤ t) :
    u32trunc ((c : Rat) * s) ≤ u32trunc ((c : Rat) * t) := by
  exact Int.toNat_le_toNat (Int.floor_mono
    (mul_le_mul_of_nonneg_left hst (by positivity)))

/-- Wrapping addition is plain addition below the modulus. -/
theorem wadd_eq (a b : Nat) (hab : a + b < U32) : wadd a b = a + b :=
  Nat.mod_eq_of_lt hab

/-- Wrapping subtraction is plain truncated subtraction when in range. -/
theorem wsub_eq (a b : Nat) (hb : b ≤ a) (ha : a < U32) : wsub a b = a - b := by
  unfold wsub
  have h1 : a + U32 - b = (a - b) + U32 := by omega
  rw [h1, Nat.add_mod_right]
  exact Nat.mod_eq_of_lt (by omega)

/-- Every write emitted by the decreasing ramp loop is strictly above the
target (the loop guard `i > pulse`). -/
theorem rampLoopDown_writes (neutral : Nat) (pd : Int) (s target : Nat) :
    ∀ (fuel i : Nat) (clock : Int) (ls : Option Int) (w : Nat),
      Event.write w ∈ (rampLoopDown neutral pd s target fuel i clock ls).1 →
      target < w := by
  intro fuel
  induction fuel with
  | zero => intro i clock ls w hw; simp [rampLoopDown] at hw
  | succ n ih =>
    intro i clock ls w hw
    rw [rampLoopDown] at hw
    by_cases hgt : target < i
    · rw [if_pos hgt] at hw
      simp only [List.mem_cons] at hw
      rcases hw with hw | hw | hw
      · cases hw; exact hgt
      · cases hw
      · exact ih _ _ _ _ hw
    · rw [if_neg hgt] at hw
      simp at hw

/-- Every write emitted by the increasing ramp loop is strictly below the
target (the loop guard `i < pulse`). -/
theorem rampLoopUp_writes (neutral : Nat) (pd : Int) (s target : Nat) :
    ∀ (fuel i : Nat) (clock : Int) (ls : Option Int) (w : Nat),
      Event.write w ∈ (rampLoopUp neutral pd s target fuel i clock ls).1 →
      w < target := by
  intro fuel
  induction fuel with
  | zero => intro i clock ls w hw; simp [rampLoopUp] at hw
  | succ n ih =>
    intro i clock ls w hw
    rw [rampLoopUp] at hw
    by_cases hlt : i < target
    · rw [if_pos hlt] at hw
      simp only [List.mem_cons] at hw
      rcases hw with hw | hw | hw
      · cases hw; exact hlt
      · cases hw
      · exact ih _ _ _ _ hw
    · rw [if_neg hlt] at hw
      simp at hw

/-- When ramping down (or staying), every stepped write stays strictly above
the target. -/
theorem rampPhase_writes_above (fuel : Nat) (h : DefaultHandler) (clock : Int)
    (target : Nat) (hpr : target ≤ h.pulse) (w : Nat)
    (hw : Event.write w ∈ (rampPhase fuel h clock target).1) : target < w := by
  unfold rampPhase at hw
  cases hps : h.pulseStep with
  | none => rw [hps] at hw; simp at hw
  | some s =>
    rw [hps] at hw
    dsimp only at hw
    have hnl : ¬ h.pulse < target := by omega
    rw [if_neg hnl] at hw
    by_cases hdn : target < h.pulse
    · rw [if_pos hdn] at hw
      exact rampLoopDown_writes _ _ _ _ _ _ _ _ _ hw
    · rw [if_neg hdn] at hw; simp at hw

/-- When ramping up (or staying), every stepped write stays strictly below
the target. -/
theorem rampPhase_writes_below (fuel : Nat) (h : DefaultHandler) (clock : Int)
    (target : Nat) (hpr : h.pulse ≤ target) (w : Nat)
    (hw : Event.write w ∈ (rampPhase fuel h clock target).1) : w < target := by
  unfold rampPhase at hw
  cases hps : h.pulseStep with
  | none => rw [hps] at hw; simp at hw
  | some s =>
    rw [hps] at hw
    dsimp only at hw
    by_cases hup : h.pulse < target
    · rw [if_pos hup] at hw
      exact rampLoopUp_writes _ _ _ _ _ _ _ _ _ hw
    · rw [if_neg hup] at hw
      have hnd : ¬ target < h.pulse := by omega
      rw [if_neg hnd] at hw; simp at hw

/-- The rate limiter emits no write events. -/
theorem rateLimitSleep_no_write (h : DefaultHandler) (clock : Int) (w : Nat) :
    Event.write w ∉ (rateLimitSleep h clock).2 := by
  unfold rateLimitSleep
  cases h.lastUpdate with
  | none => simp
  | some t =>
    dsimp only
    by_cases hc : clock - t < h.periodDelay
    · rw [if_pos hc]; simp
    · rw [if_neg hc]; simp

/-- A prefix whose writes all avoid `P` preserves `neutralBefore`. -/
theorem neutralBefore_append (n : Nat) (P : Nat → Prop) (xs ys : List Event)
    (hxs : ∀ w, Event.write w ∈ xs → ¬ P w) (hys : neutralBefore n P ys) :
    neutralBefore n P (xs ++ ys) := by
  unfold neutralBefore
  intro i w hget hPw
  rcases Nat.lt_or_ge i xs.length with hi | hi
  · exfalso
    rw [List.getElem?_append_left hi] at hget
    exact hxs w (List.getElem?_mem hget) hPw
  · rw [List.getElem?_append_right hi] at hget
    obtain ⟨j, hj, hjget⟩ := hys _ _ hget hPw
    refine ⟨xs.length + j, by omega, ?_⟩
    rw [List.getElem?_append_right (by omega)]
    simpa using hjget

/-- A list beginning with the neutral write satisfies `neutralBefore`
whatever follows, provided the neutral pulse itself is not on the far side. -/
theorem neutralBefore_cons_self (n : Nat) (P : Nat → Prop) (hn : ¬ P n)
    (l : List Event) : neutralBefore n P (Event.write n :: l) := by
  unfold neutralBefore
  intro i w hget hPw
  cases i with
  | zero =>
    simp only [List.getElem?_cons_zero, Option.some.injEq] at hget
    injection hget with hnw
    rw [← hnw] at hPw
    exact absurd hPw hn
  | succ k => exact ⟨0, Nat.succ_pos k, by simp⟩

/-- The empty trace vacuously satisfies `neutralBefore`. -/
theorem neutralBefore_nil (n : Nat) (P : Nat → Prop) : neutralBefore n P [] := by
  unfold neutralBefore
  intro i w hget
  simp at hget

/-- `computeCommand` at `Stop`: target is the neutral pulse, state untouched. -/
theorem computeCommand_stop (h : DefaultHandler) (s : Rat) :
    computeCommand h s Direction.stop = some (h.neutralPulseWidth, h) := rfl

/-- `computeCommand` at `Forward`. -/
theorem computeCommand_forward (h : DefaultHandler) (s : Rat) :
    computeCommand h s Direction.forward =
      some (wadd h.neutralPulseWidth
              (u32trunc (((wsub h.maxPulseWidth h.neutralPulseWidth : Nat) : Rat) * s)),
            { h with speed := s }) := rfl

/-- `computeCommand` at `Backward`. -/
theorem computeCommand_backward (h : DefaultHandler) (s : Rat) :
    computeCommand h s Direction.backward =
      some (wsub h.neutralPulseWidth
              (u32trunc (((wsub h.neutralPulseWidth h.minPulseWidth : Nat) : Rat) * s)),
            { h with speed := -s }) := rfl

/-- An out-of-range speed fails before anything happens. -/
theorem setSpeedResolved_invalid (fuel : Nat) (h : DefaultHandler) (clock : Int)
    (g : Option Bool) (s : Rat) (d : Direction) (hval : s < 0 ∨ 1 < s) :
    setSpeedResolved fuel h clock g s d = ⟨h, clock, [], ErrorCode.speedOutOfRange⟩ := by
  unfold setSpeedResolved
  rw [if_pos hval]

/-- The nil direction sentinel fails with `UnknownDirection`, untouched state. -/
theorem setSpeedResolved_dirNil (fuel : Nat) (h : DefaultHandler) (clock : Int)
    (g : Option Bool) (s : Rat) (hval : ¬ (s < 0 ∨ 1 < s)) :
    setSpeedResolved fuel h clock g s Direction.dirNil =
      ⟨h, clock, [], ErrorCode.unknownDirection⟩ := by
  unfold setSpeedResolved
  rw [if_neg hval]
  rfl

/-- With the gate reporting disabled, the write branch is skipped entirely. -/
theorem setSpeedResolved_gate_disabled (fuel : Nat) (h : DefaultHandler) (clock : Int)
    (s : Rat) (d : Direction) (pc : Nat × DefaultHandler)
    (hval : ¬ (s < 0 ∨ 1 < s)) (hcc : computeCommand h s d = some pc) :
    setSpeedResolved fuel h clock (some false) s d = ⟨pc.2, clock, [], ErrorCode.errNil⟩ := by
  unfold setSpeedResolved
  rw [if_neg hval, hcc]
  rfl

/-- With the gate passing and the target equal to the current pulse, the call
is a no-op (the short-circuit). -/
theorem setSpeedResolved_noop (fuel : Nat) (h : DefaultHandler) (clock : Int)
    (g : Option Bool) (s : Rat) (d : Direction) (pc : Nat × DefaultHandler)
    (hval : ¬ (s < 0 ∨ 1 < s)) (hcc : computeCommand h s d = some pc)
    (hg : g ≠ some false) (hch : ¬ pc.2.pulse ≠ pc.1) :
    setSpeedResolved fuel h clock g s d = ⟨pc.2, clock, [], ErrorCode.errNil⟩ := by
  unfold setSpeedResolved
  rw [if_neg hval, hcc]
  dsimp only
  rw [if_neg hg, if_neg hch]

/-- With the gate passing and a changed target, the call runs the write
branch. -/
theorem setSpeedResolved_run (fuel : Nat) (h : DefaultHandler) (clock : Int)
    (g : Option Bool) (s : Rat) (d : Direction) (pc : Nat × DefaultHandler)
    (hval : ¬ (s < 0 ∨ 1 < s)) (hcc : computeCommand h s d = some pc)
    (hg : g ≠ some false) (hch : pc.2.pulse ≠ pc.1) :
    setSpeedResolved fuel h clock g s d = commandRun fuel pc.2 clock d pc.1 := by
  unfold setSpeedResolved
  rw [if_neg hval, hcc]
  dsimp only
  rw [if_neg hg, if_pos hch]

/-- The write branch always lands exactly on the target pulse. -/
theorem commandRun_h_pulse (fuel : Nat) (h1 : DefaultHandler) (clock : Int)
    (d : Direction) (p : Nat) : (commandRun fuel h1 clock d p).h.pulse = p := rfl

/-- The write branch never touches the stored speed. -/
theorem commandRun_h_speed (fuel : Nat) (h1 : DefaultHandler) (clock : Int)
    (d : Direction) (p : Nat) : (commandRun fuel h1 clock d p).h.speed = h1.speed := by
  simp only [commandRun]
  by_cases hd : h1.direction ≠ d ∧ h1.direction ≠ Direction.stop
  · rw [if_pos hd]
    rfl
  · rw [if_neg hd]
    rfl

/-- The final pulse of an accepted, gate-passing call is the computed target
(either through the no-op short-circuit or through the ramp). -/
theorem setSpeedResolved_h_pulse (fuel : Nat) (h : DefaultHandler) (clock : Int)
    (g : Option Bool) (s : Rat) (d : Direction) (pc : Nat × DefaultHandler)
    (hval : ¬ (s < 0 ∨ 1 < s)) (hcc : computeCommand h s d = some pc)
    (hg : g ≠ some false) :
    (setSpeedResolved fuel h clock g s d).h.pulse = pc.1 := by
  by_cases hch : pc.2.pulse ≠ pc.1
  · rw [setSpeedResolved_run fuel h clock g s d pc hval hcc hg hch]
    exact commandRun_h_pulse fuel pc.2 clock d pc.1
  · rw [setSpeedResolved_noop fuel h clock g s d pc hval hcc hg hch]
    exact not_ne_iff.mp hch

/-- The stored speed after an accepted call is the one computed by the
direction switch (it is written before the gate check, so in every branch). -/
theorem setSpeedResolved_h_speed (fuel : Nat) (h : DefaultHandler) (clock : Int)
    (g : Option Bool) (s : Rat) (d : Direction) (pc : Nat × DefaultHandler)
    (hval : ¬ (s < 0 ∨ 1 < s)) (hcc : computeCommand h s d = some pc) :
    (setSpeedResolved fuel h clock g s d).h.speed = pc.2.speed := by
  by_cases hgf : g = some false
  · rw [hgf, setSpeedResolved_gate_disabled fuel h clock s d pc hval hcc]
  · by_cases hch : pc.2.pulse ≠ pc.1
    · rw [setSpeedResolved_run fuel h clock g s d pc hval hcc hgf hch]
      exact commandRun_h_speed fuel pc.2 clock d pc.1
    · rw [setSpeedResolved_noop fuel h clock g s d pc hval hcc hgf hch]

/-- `graduallySetPulseWidth` with no `pulseStep`: a single direct write. -/
theorem graduallySetPulseWidth_none (fuel : Nat) (h : DefaultHandler) (clock : Int)
    (p : Nat) (hps : h.pulseStep = none) :
    graduallySetPulseWidth fuel h clock p =
      ({ h with pulse := p,
                lastStopTime := if p = h.neutralPulseWidth then some clock
                                else h.lastStopTime },
       clock, [Event.write p]) := by
  unfold graduallySetPulseWidth rampPhase
  rw [hps]
  rfl

/-- The trace of `graduallySetPulseWidth` is the stepped phase followed by
the exact final write. -/
theorem graduallySetPulseWidth_trace (fuel : Nat) (h : DefaultHandler) (clock : Int)
    (p : Nat) :
    (graduallySetPulseWidth fuel h clock p).2.2 =
      (rampPhase fuel h clock p).1 ++ [Event.write p] := rfl

/-- The rate limiter is inactive when no update has been recorded. -/
theorem rateLimitSleep_none (h : DefaultHandler) (clock : Int)
    (hlu : h.lastUpdate = none) : rateLimitSleep h clock = (clock, []) := by
  unfold rateLimitSleep
  rw [hlu]

/-- An initial `Stop()` on a handler already at neutral changes nothing. -/
theorem stop_noop (fuel : Nat) (h : DefaultHandler) (clock : Int) (g : Option Bool)
    (hp : h.pulse = h.neutralPulseWidth) :
    stop fuel h clock g = ⟨h, clock, [], ErrorCode.errNil⟩ := by
  unfold stop setSpeed
  have hd : (if h.isPolarityInverted then Direction.stop.invertedDirection
             else Direction.stop) = Direction.stop := by
    cases h.isPolarityInverted <;> rfl
  rw [hd]
  by_cases hgf : g = some false
  · rw [hgf, setSpeedResolved_gate_disabled fuel h clock 0 Direction.stop
        (h.neutralPulseWidth, h) (by norm_num) (computeCommand_stop h 0)]
  · exact setSpeedResolved_noop fuel h clock g 0 Direction.stop
      (h.neutralPulseWidth, h) (by norm_num) (computeCommand_stop h 0) hgf
      (not_ne_iff.mpr hp)

/-- A valid speed is not flagged out of range. -/
theorem speed_valid {s : Rat} (hs0 : 0 ≤ s) (hs1 : s ≤ 1) : ¬ (s < 0 ∨ 1 < s) := by
  rintro (hc | hc)
  · exact absurd hs0 (not_le.mpr hc)
  · exact absurd hs1 (not_le.mpr hc)

/-- Polarity not inverted: the resolved direction is the commanded one. -/
theorem resolve_id (h : DefaultHandler) (d : Direction) (hpol : h.isPolarityInverted = false) :
    (if h.isPolarityInverted then d.invertedDirection else d) = d := by
  rw [hpol]
  simp

/-- The forward pulse formula of an accepted, gate-passing call: plain
(non-wrapping) arithmetic under a valid calibration. -/
theorem setSpeed_forward_pulse (fuel : Nat) (h : DefaultHandler) (clock : Int)
    (g : Option Bool) (s : Rat) (hpol : h.isPolarityInverted = false)
    (hg : g ≠ some false) (hs0 : 0 ≤ s) (hs1 : s ≤ 1)
    (hnm : h.neutralPulseWidth ≤ h.maxPulseWidth) (hmx : h.maxPulseWidth < U32) :
    (setSpeed fuel h clock g s Direction.forward).h.pulse =
      h.neutralPulseWidth +
        u32trunc (((h.maxPulseWidth - h.neutralPulseWidth : Nat) : Rat) * s) := by
  unfold setSpeed
  rw [resolve_id h Direction.forward hpol]
  rw [setSpeedResolved_h_pulse fuel h clock g s Direction.forward _
    (speed_valid hs0 hs1) (computeCommand_forward h s) hg]
  rw [wsub_eq h.maxPulseWidth h.neutralPulseWidth hnm hmx]
  have hb := u32trunc_mul_le (h.maxPulseWidth - h.neutralPulseWidth) hs1 (s := s)
  exact wadd_eq _ _ (by omega)

/-- The backward pulse formula of an accepted, gate-passing call. -/
theorem setSpeed_backward_pulse (fuel : Nat) (h : DefaultHandler) (clock : Int)
    (g : Option Bool) (s : Rat) (hpol : h.isPolarityInverted = false)
    (hg : g ≠ some false) (hs0 : 0 ≤ s) (hs1 : s ≤ 1)
    (hmn : h.minPulseWidth ≤ h.neutralPulseWidth)
    (hnm : h.neutralPulseWidth ≤ h.maxPulseWidth) (hmx : h.maxPulseWidth < U32) :
    (setSpeed fuel h clock g s Direction.backward).h.pulse =
      h.neutralPulseWidth -
        u32trunc (((h.neutralPulseWidth - h.minPulseWidth : Nat) : Rat) * s) := by
  unfold setSpeed
  rw [resolve_id h Direction.backward hpol]
  rw [setSpeedResolved_h_pulse fuel h clock g s Direction.backward _
    (speed_valid hs0 hs1) (computeCommand_backward h s) hg]
  rw [wsub_eq h.neutralPulseWidth h.minPulseWidth hmn (by omega)]
  have hb := u32trunc_mul_le (h.neutralPulseWidth - h.minPulseWidth) hs1 (s := s)
  exact wsub_eq _ _ (by omega) (by omega)

/-- C6: the claim uses round-to-nearest in the pulse mapping and says the
signed speed is "forced to 0" on Stop; the code truncates toward zero
(`uint32` conversion of the `float64` product) and the Stop branch zeroes
only a local copy, leaving the stored signed speed unchanged.  Amended
statement proved here: for every valid speed and calibration, with the gate
passing and polarity not inverted, the Forward target pulse is
`neutral + trunc((max − neutral) × speed)` with the stored speed becoming
`+speed`; the Backward target is `neutral − trunc((neutral − min) × speed)`
with stored speed `−speed`; on Stop the pulse is the neutral one and the
stored signed speed is left unchanged. -/
theorem c6_amended (fuel : Nat) (h : DefaultHandler) (clock : Int)
    (g : Option Bool) (s : Rat) (hpol : h.isPolarityInverted = false)
    (hg : g ≠ some false) (hs0 : 0 ≤ s) (hs1 : s ≤ 1)
    (hmn : h.minPulseWidth ≤ h.neutralPulseWidth)
    (hnm : h.neutralPulseWidth ≤ h.maxPulseWidth) (hmx : h.maxPulseWidth < U32) :
    (setSpeed fuel h clock g s Direction.forward).h.pulse =
        h.neutralPulseWidth +
          u32trunc (((h.maxPulseWidth - h.neutralPulseWidth : Nat) : Rat) * s) ∧
    (setSpeed fuel h clock g s Direction.forward).h.speed = s ∧
    (setSpeed fuel h clock g s Direction.backward).h.pulse =
        h.neutralPulseWidth -
          u32trunc (((h.neutralPulseWidth - h.minPulseWidth : Nat) : Rat) * s) ∧
    (setSpeed fuel h clock g s Direction.backward).h.speed = -s ∧
    (setSpeed fuel h clock g s Direction.stop).h.pulse = h.neutralPulseWidth ∧
    (setSpeed fuel h clock g s Direction.stop).h.speed = h.speed := by
  refine ⟨?_, ?_, ?_, ?_, ?_, ?_⟩
  · exact setSpeed_forward_pulse fuel h clock g s hpol hg hs0 hs1 hnm hmx
  · unfold setSpeed
    rw [resolve_id h Direction.forward hpol]
    rw [setSpeedResolved_h_speed fuel h clock g s Direction.forward _
      (speed_valid hs0 hs1) (computeCommand_forward h s)]
  · exact setSpeed_backward_pulse fuel h clock g s hpol hg hs0 hs1 hmn hnm hmx
  · unfold setSpeed
    rw [resolve_id h Direction.backward hpol]
    rw [setSpeedResolved_h_speed fuel h clock g s Direction.backward _
      (speed_valid hs0 hs1) (computeCommand_backward h s)]
  · unfold setSpeed
    rw [resolve_id h Direction.stop hpol]
    rw [setSpeedResolved_h_pulse fuel h clock g s Direction.stop _
      (speed_valid hs0 hs1) (computeCommand_stop h s) hg]
  · unfold setSpeed
    rw [resolve_id h Direction.stop hpol]
    rw [setSpeedResolved_h_speed fuel h clock g s Direction.stop _
      (speed_valid hs0 hs1) (computeCommand_stop h s)]

/-- C6 witness: the amended formula instantiated on `tHandler` with speed
`1/2`: the forward pulse is `150 + trunc(10 × 1/2)`. -/
theorem c6_witness :
    (setSpeed 9 tHandler 0 none (1/2) Direction.forward).h.pulse =
      tHandler.neutralPulseWidth +
        u32trunc (((tHandler.maxPulseWidth - tHandler.neutralPulseWidth : Nat) : Rat) * (1/2)) :=
  (c6_amended 9 tHandler 0 none (1/2) rfl (by simp) (by norm_num) (by norm_num)
    (by decide) (by decide) (by decide)).1

/-- C8: for all speeds in `[0,1]`, with the gate passing and polarity not
inverted, an accepted forward command lands in `[neutral, max]` and is
monotone (nondecreasing) in the speed; a backward command lands in
`[min, neutral]` and is antitone in the speed. -/
theorem c8_range_monotone (fuel : Nat) (h : DefaultHandler) (clock : Int)
    (g : Option Bool) (hpol : h.isPolarityInverted = false) (hg : g ≠ some false)
    (hmn : h.minPulseWidth ≤ h.neutralPulseWidth)
    (hnm : h.neutralPulseWidth ≤ h.maxPulseWidth) (hmx : h.maxPulseWidth < U32) :
    (∀ s : Rat, 0 ≤ s → s ≤ 1 →
      h.neutralPulseWidth ≤ (setSpeed fuel h clock g s Direction.forward).h.pulse ∧
      (setSpeed fuel h clock g s Direction.forward).h.pulse ≤ h.maxPulseWidth ∧
      h.minPulseWidth ≤ (setSpeed fuel h clock g s Direction.backward).h.pulse ∧
      (setSpeed fuel h clock g s Direction.backward).h.pulse ≤ h.neutralPulseWidth) ∧
    (∀ s₁ s₂ : Rat, 0 ≤ s₁ → s₁ ≤ s₂ → s₂ ≤ 1 →
      (setSpeed fuel h clock g s₁ Direction.forward).h.pulse ≤
        (setSpeed fuel h clock g s₂ Direction.forward).h.pulse ∧
      (setSpeed fuel h clock g s₂ Direction.backward).h.pulse ≤
        (setSpeed fuel h clock g s₁ Direction.backward).h.pulse) := by
  constructor
  · intro s hs0 hs1
    have hf := setSpeed_forward_pulse fuel h clock g s hpol hg hs0 hs1 hnm hmx
    have hbk := setSpeed_backward_pulse fuel h clock g s hpol hg hs0 hs1 hmn hnm hmx
    have hbf := u32trunc_mul_le (h.maxPulseWidth - h.neutralPulseWidth) hs1 (s := s)
    have hbb := u32trunc_mul_le (h.neutralPulseWidth - h.minPulseWidth) hs1 (s := s)
    rw [hf, hbk]
    omega
  · intro s₁ s₂ hs0 hss hs1
    have hf1 := setSpeed_forward_pulse fuel h clock g s₁ hpol hg hs0 (hss.trans hs1) hnm hmx
    have hf2 := setSpeed_forward_pulse fuel h clock g s₂ hpol hg (hs0.trans hss) hs1 hnm hmx
    have hb1 := setSpeed_backward_pulse fuel h clock g s₁ hpol hg hs0 (hss.trans hs1) hmn hnm hmx
    have hb2 := setSpeed_backward_pulse fuel h clock g s₂ hpol hg (hs0.trans hss) hs1 hmn hnm hmx
    have hmf := u32trunc_mul_mono (h.maxPulseWidth - h.neutralPulseWidth) hss
    have hmb := u32trunc_mul_mono (h.neutralPulseWidth - h.minPulseWidth) hss
    have hq1 := u32trunc_mul_le (h.neutralPulseWidth - h.minPulseWidth) hs1 (s := s₂)
    rw [hf1, hf2, hb1, hb2]
    omega

/-- C8 witness: on `tHandler`, the forward pulse at speed `1/4` is below the
one at speed `1/2`, and the latter stays at most the maximum pulse width. -/
theorem c8_witness :
    (setSpeed 9 tHandler 0 none (1/4) Direction.forward).h.pulse ≤
      (setSpeed 9 tHandler 0 none (1/2) Direction.forward).h.pulse ∧
    (setSpeed 9 tHandler 0 none (1/2) Direction.forward).h.pulse ≤
      tHandler.maxPulseWidth := by
  have hc := c8_range_monotone 9 tHandler 0 none rfl (by simp)
    (by decide) (by decide) (by decide)
  exact ⟨(hc.2 (1/4) (1/2) (by norm_num) (by norm_num) (by norm_num)).1,
         ((hc.1 (1/2) (by norm_num) (by norm_num)).2).1⟩

/-- C9: an out-of-range speed fails with `SpeedOutOfRange` and an
unrecognized (nil-resolved) direction with a valid speed fails with
`UnknownDirection`; in both cases the whole controller state, the clock and
the write trace are untouched (the full result is the input state with the
error code), so the caller may retry. -/
theorem c9_command_errors (fuel : Nat) (h : DefaultHandler) (clock : Int)
    (g : Option Bool) (s : Rat) (dir : Direction) :
    ((s < 0 ∨ 1 < s) →
      setSpeed fuel h clock g s dir = ⟨h, clock, [], ErrorCode.speedOutOfRange⟩) ∧
    (¬ (s < 0 ∨ 1 < s) →
      (if h.isPolarityInverted then dir.invertedDirection else dir) = Direction.dirNil →
      setSpeed fuel h clock g s dir = ⟨h, clock, [], ErrorCode.unknownDirection⟩) := by
  constructor
  · intro hval
    exact setSpeedResolved_invalid fuel h clock g s _ hval
  · intro hval hd
    unfold setSpeed
    rw [hd]
    exact setSpeedResolved_dirNil fuel h clock g s hval

/-- C9 witness: `SetSpeed(1.5, Forward)` and `SetSpeed(0.5, None)` on
`tHandler` fail with the respective error codes and leave everything
unchanged. -/
theorem c9_witness :
    setSpeed 9 tHandler 0 none (3/2) Direction.forward =
      ⟨tHandler, 0, [], ErrorCode.speedOutOfRange⟩ ∧
    setSpeed 9 tHandler 0 none (1/2) Direction.dirNil =
      ⟨tHandler, 0, [], ErrorCode.unknownDirection⟩ := by
  constructor
  · exact (c9_command_errors 9 tHandler 0 none (3/2) Direction.forward).1 (by norm_num)
  · exact (c9_command_errors 9 tHandler 0 none (1/2) Direction.dirNil).2 (by norm_num) rfl

/-- C5: an accepted direction-reversing call passes through neutral first:
whenever the current direction is Forward (resp. Backward), the resolved
command is Backward (resp. Forward) and the current pulse is on the
expected side of neutral, every pulse written on the far side of neutral is
strictly preceded in the call's write sequence by a write of exactly
`neutralPulseWidth`.  This holds because the ramp-to-neutral loop's guard
keeps every stepped write strictly on the near side, the exact neutral
write follows it, and only then does the second ramp move to the far
side. -/
theorem c5_reversal_through_neutral (fuel : Nat) (h : DefaultHandler) (clock : Int)
    (g : Option Bool) (s : Rat) (dir : Direction) :
    (h.direction = Direction.forward →
      (if h.isPolarityInverted then dir.invertedDirection else dir) = Direction.backward →
      h.neutralPulseWidth ≤ h.pulse →
      neutralBefore h.neutralPulseWidth (fun w => w < h.neutralPulseWidth)
        (setSpeed fuel h clock g s dir).trace) ∧
    (h.direction = Direction.backward →
      (if h.isPolarityInverted then dir.invertedDirection else dir) = Direction.forward →
      h.pulse ≤ h.neutralPulseWidth →
      neutralBefore h.neutralPulseWidth (fun w => h.neutralPulseWidth < w)
        (setSpeed fuel h clock g s dir).trace) := by
  constructor
  · intro hdir hres hpr
    unfold setSpeed
    rw [hres]
    by_cases hval : s < 0 ∨ 1 < s
    · rw [setSpeedResolved_invalid fuel h clock g s Direction.backward hval]
      exact neutralBefore_nil _ _
    by_cases hgf : g = some false
    · rw [hgf, setSpeedResolved_gate_disabled fuel h clock s Direction.backward _
        hval (computeCommand_backward h s)]
      exact neutralBefore_nil _ _
    by_cases hch : (({ h with speed := -s } : DefaultHandler).pulse ≠
        wsub h.neutralPulseWidth
          (u32trunc (((wsub h.neutralPulseWidth h.minPulseWidth : Nat) : Rat) * s)))
    · rw [setSpeedResolved_run fuel h clock g s Direction.backward _
        hval (computeCommand_backward h s) hgf hch]
      have hcond : (({ h with speed := -s } : DefaultHandler).direction ≠ Direction.backward ∧
          ({ h with speed := -s } : DefaultHandler).direction ≠ Direction.stop) := by
        constructor <;> (show h.direction ≠ _) <;> rw [hdir] <;> simp
      simp only [commandRun, if_pos hcond, graduallySetPulseWidth_trace,
        List.append_assoc, List.singleton_append, List.cons_append]
      apply neutralBefore_append
      · intro w hw
        exact absurd hw (rateLimitSleep_no_write _ clock w)
      apply neutralBefore_append
      · intro w hw
        have := rampPhase_writes_above fuel { h with speed := -s }
          (rateLimitSleep { h with speed := -s } clock).1 h.neutralPulseWidth hpr w hw
        omega
      · exact neutralBefore_cons_self _ _ (by omega) _
    · rw [setSpeedResolved_noop fuel h clock g s Direction.backward _
        hval (computeCommand_backward h s) hgf hch]
      exact neutralBefore_nil _ _
  · intro hdir hres hpr
    unfold setSpeed
    rw [hres]
    by_cases hval : s < 0 ∨ 1 < s
    · rw [setSpeedResolved_invalid fuel h clock g s Direction.forward hval]
      exact neutralBefore_nil _ _
    by_cases hgf : g = some false
    · rw [hgf, setSpeedResolved_gate_disabled fuel h clock s Direction.forward _
        hval (computeCommand_forward h s)]
      exact neutralBefore_nil _ _
    by_cases hch : (({ h with speed := s } : DefaultHandler).pulse ≠
        wadd h.neutralPulseWidth
          (u32trunc (((wsub h.maxPulseWidth h.neutralPulseWidth : Nat) : Rat) * s)))
    · rw [setSpeedResolved_run fuel h clock g s Direction.forward _
        hval (computeCommand_forward h s) hgf hch]
      have hcond : (({ h with speed := s } : DefaultHandler).direction ≠ Direction.forward ∧
          ({ h with speed := s } : DefaultHandler).direction ≠ Direction.stop) := by
        constructor <;> (show h.direction ≠ _) <;> rw [hdir] <;> simp
      simp only [commandRun, if_pos hcond, graduallySetPulseWidth_trace,
        List.append_assoc, List.singleton_append, List.cons_append]
      apply neutralBefore_append
      · intro w hw
        exact absurd hw (rateLimitSleep_no_write _ clock w)
      apply neutralBefore_append
      · intro w hw
        have := rampPhase_writes_below fuel { h with speed := s }
          (rateLimitSleep { h with speed := s } clock).1 h.neutralPulseWidth hpr w hw
        omega
      · exact neutralBefore_cons_self _ _ (by omega) _
    · rw [setSpeedResolved_noop fuel h clock g s Direction.forward _
        hval (computeCommand_forward h s) hgf hch]
      exact neutralBefore_nil _ _

/-- C5 witness: the controller at Forward/0.5 (pulse 155) receives
`SetSpeed(0.5, Backward)`; the write at index 3 is the far-side pulse 145,
and the theorem produces an earlier write of the neutral 150. -/
theorem c5_witness :
    ∃ j, j < 3 ∧
      (setSpeed 9 tRun1.h tRun1.clock none (1/2) Direction.backward).trace[j]? =
        some (Event.write 150) := by
  have hd : tRun1.h.direction = Direction.forward := by with_unfolding_all rfl
  have hres : (if tRun1.h.isPolarityInverted then Direction.backward.invertedDirection
      else Direction.backward) = Direction.backward := by with_unfolding_all rfl
  have hn : tRun1.h.neutralPulseWidth = 150 := by with_unfolding_all rfl
  have hp : tRun1.h.pulse = 155 := by with_unfolding_all rfl
  have hpr : tRun1.h.neutralPulseWidth ≤ tRun1.h.pulse := by rw [hn, hp]; omega
  have hget : (setSpeed 9 tRun1.h tRun1.clock none (1/2) Direction.backward).trace[3]? =
      some (Event.write 145) := by with_unfolding_all rfl
  have hfar : 145 < tRun1.h.neutralPulseWidth := by rw [hn]; omega
  obtain ⟨j, hj, hjget⟩ :=
    (c5_reversal_through_neutral 9 tRun1.h tRun1.clock none (1/2)
      Direction.backward).1 hd hres hpr 3 145 hget hfar
  rw [hn] at hjget
  exact ⟨j, hj, hjget⟩

/-- C1: the claim says that while the movement gate reports disabled any
`SetSpeed` call succeeds and resolves the physical pulse to
`neutralPulseWidth`.  The code does compute the neutral override into the
local `pulse` variable, but that branch skips the whole write block
(`else if h.pulse != pulse`), so nothing is written and the current pulse is
left where it was.  Here the controller is at pulse 160 (after
`SetSpeed(1.0, Forward)` with the gate enabled); the gated
`SetSpeed(0.5, Forward)` returns success, writes nothing, and leaves the
pulse at 160 instead of the neutral 150 required by the claim — the dead
local override shows the code contradicts its own intent. -/
theorem c1_gate_override_code_bug :
    tGate2.err = ErrorCode.errNil ∧ tGate2.trace = [] ∧
    tGate2.h.pulse = 160 ∧ tGate2.h.neutralPulseWidth = 150 := by
  refine ⟨?_, ?_, ?_, ?_⟩ <;> with_unfolding_all rfl

/-- C2: the claim says `Stop()` leaves `currentPulse = neutralPulseWidth`
and a subsequent `GetSpeed()` returns 0.  The pulse part holds, but the
`DirectionStop` case of `SetSpeed` zeroes only its local `speed` copy and
never resets the stored `h.speed`, so after `SetSpeed(0.5, Forward)`
followed by `Stop()` the stored speed is still `1/2` and `GetSpeed()`
returns `1/2`, not 0 — contradicting both the claim and the code's own
documentation of `Stop` ("sets the ESC motor speed to 0"). -/
theorem c2_stop_getSpeed_code_bug :
    tRun2.h.pulse = tRun2.h.neutralPulseWidth ∧ tRun2.h.direction = Direction.stop ∧
    getSpeed tRun2.h = 1/2 ∧ getSpeed tRun2.h ≠ 0 := by
  refine ⟨?_, ?_, ?_, ?_⟩
  · with_unfolding_all rfl
  · with_unfolding_all rfl
  · with_unfolding_all rfl
  · have hg : getSpeed tRun2.h = 1/2 := by with_unfolding_all rfl
    rw [hg]; norm_num

/-- C3: the claim says `GetSpeed()` returns minus the commanded speed after
a Backward-resolved command.  `SetSpeed` stores `h.speed = -speed` for
Backward, but `GetSpeed` negates again when `direction == Backward`, so
after `SetSpeed(0.5, Backward)` it returns `+1/2` rather than `-1/2`: a
double negation; the stored field and the observer callback use the signed
convention the claim states, so the extra negation in `GetSpeed` is the
slip. -/
theorem c3_getSpeed_sign_code_bug :
    tRunB.h.direction = Direction.backward ∧ tRunB.h.speed = -(1/2) ∧
    getSpeed tRunB.h = 1/2 ∧ getSpeed tRunB.h ≠ -(1/2) := by
  refine ⟨?_, ?_, ?_, ?_⟩
  · with_unfolding_all rfl
  · with_unfolding_all rfl
  · with_unfolding_all rfl
  · have hg : getSpeed tRunB.h = 1/2 := by with_unfolding_all rfl
    rw [hg]; norm_num

/-- C4 counterexample: the claim says the direction-change protocol —
including the reversal dwell — runs only when `currentDirection` is a
non-Stop direction different from the new one.  Here the controller's
current direction is `Stop` (after `tRun2`), yet the forward command
`tRun3` still blocks for the dwell: its trace is a rate-limit sleep of
980 ns followed by a dwell sleep of 99000 ns (the 100000 ns
backward-to-forward delay minus the 1000 ns already spent at neutral) and
the target write; the call blocks 99980 ns in total although per the claim
no dwell should be waited from `Stop`. -/
theorem c4_counterexample :
    tRun2.h.direction = Direction.stop ∧
    tRun3.trace = [Event.sleep 980, Event.sleep 99000, Event.write 155] ∧
    tRun3.clock - (tRun2.clock + 20) = 99980 := by
  refine ⟨?_, ?_, ?_⟩ <;> with_unfolding_all rfl

/-- C6 counterexample: the claim says the forward target pulse is
`neutralPulseWidth + round((maxPulseWidth − neutralPulseWidth) × speed)`
with round-to-nearest.  With calibration 140/150/160 and speed `27/100` the
product is exactly 2.7, so the claim predicts `150 + 3 = 153`; the code's
`uint32(float64(...) * speed)` conversion truncates toward zero and
produces `150 + 2 = 152`. -/
theorem c6_counterexample :
    tRunC6.err = ErrorCode.errNil ∧ tRunC6.h.pulse = 152 ∧
    ¬ tRunC6.h.pulse = 153 := by
  refine ⟨?_, ?_, ?_⟩
  · with_unfolding_all rfl
  · with_unfolding_all rfl
  · have hp : tRunC6.h.pulse = 152 := by with_unfolding_all rfl
    rw [hp]; omega

/-- C7 counterexample: the claim says every intermediate pulse width
written during a ramp stays within `[minPulseWidth, maxPulseWidth]`.  With
the unchecked `pulseStep = 2^31 + 5` the decreasing ramp `160 → 150` wraps
its `uint32` counter and writes the pulse `2147483803`, far above
`maxPulseWidth = 160`, during an accepted `Stop()`. -/
theorem c7_counterexample :
    tStepRun2.err = ErrorCode.errNil ∧
    Event.write 2147483803 ∈ tStepRun2.trace ∧
    tStepHandler.maxPulseWidth < 2147483803 := by
  refine ⟨?_, ?_, ?_⟩
  · with_unfolding_all rfl
  · have ht : tStepRun2.trace = [Event.sleep 1000, Event.write 160, Event.sleep 1000,
        Event.write 2147483803, Event.sleep 1000, Event.write 150, Event.write 150] := by
      with_unfolding_all rfl
    rw [ht]; simp
  · decide

/-- C10: `pulseStep` is stored by the constructor without any validation
(`newDefaultHandler` accepts `2^31 + 50` on a valid 1400/1500/1600
calibration), and the decreasing ramp loop's `uint32` counter then wraps:
the `Stop()` after `SetSpeed(1.0, Forward)` writes the out-of-range pulse
`2147485198 > maxPulseWidth = 1600` before the final write snaps to the
target 1500. -/
theorem c10_wraparound :
    newDefaultHandler 50 1400 1500 1600 false 1 1 (some 2147483698) 100000 100000 9 0 none =
      Except.ok (tWrapHandler, 0) ∧
    Event.write 2147485198 ∈ tWrapRun2.trace ∧
    tWrapHandler.maxPulseWidth < 2147485198 ∧
    tWrapRun2.h.pulse = 1500 ∧
    tWrapRun2.trace.getLast? = some (Event.write 1500) := by
  refine ⟨?_, ?_, ?_, ?_, ?_⟩
  · with_unfolding_all rfl
  · have ht : tWrapRun2.trace = [Event.sleep 20000000, Event.write 1600,
        Event.sleep 20000000, Event.write 2147485198, Event.sleep 20000000,
        Event.write 1500, Event.write 1500] := by
      with_unfolding_all rfl
    rw [ht]; simp
  · decide
  · with_unfolding_all rfl
  · with_unfolding_all rfl

/-- Unfolded delay choice when entering Forward. -/
theorem delayFor_forward (h : DefaultHandler) :
    delayFor h Direction.forward = h.backwardToForwardDelay := rfl

/-- Unfolded delay choice when entering Backward. -/
theorem delayFor_backward (h : DefaultHandler) :
    delayFor h Direction.backward = h.forwardToBackwardDelay := rfl

/-- The dwell block when entering Forward from a different direction. -/
theorem reversalDwell_enter_forward (hdir : Direction) (b2f f2b : Int)
    (ls : Option Int) (clock : Int) (hd : hdir ≠ Direction.forward) :
    reversalDwell hdir Direction.forward b2f f2b ls clock =
      (clock + max (dwellOf b2f ls clock) 0, [Event.sleep (dwellOf b2f ls clock)]) := by
  unfold reversalDwell
  rw [if_pos ⟨hd, rfl⟩]

/-- The dwell block when entering Backward from a different direction. -/
theorem reversalDwell_enter_backward (hdir : Direction) (b2f f2b : Int)
    (ls : Option Int) (clock : Int) (hd : hdir ≠ Direction.backward) :
    reversalDwell hdir Direction.backward b2f f2b ls clock =
      (clock + max (dwellOf f2b ls clock) 0, [Event.sleep (dwellOf f2b ls clock)]) := by
  unfold reversalDwell
  rw [if_neg (by simp), if_pos ⟨hd, rfl⟩]

/-- The write branch with no `pulseStep` and no pending rate limit: from a
`Stop` current direction it is dwell-then-write; from a non-Stop differing
direction it is neutral write, dwell (measured from the just-recorded stop
time), target write. -/
theorem commandRun_simple (fuel : Nat) (hh : DefaultHandler) (clock : Int)
    (d : Direction) (tgt : Nat)
    (hps : hh.pulseStep = none) (hlu : hh.lastUpdate = none) :
    (hh.direction = Direction.stop →
      (commandRun fuel hh clock d tgt).trace =
        (reversalDwell hh.direction d hh.backwardToForwardDelay
          hh.forwardToBackwardDelay hh.lastStopTime clock).2 ++ [Event.write tgt] ∧
      (commandRun fuel hh clock d tgt).clock =
        (reversalDwell hh.direction d hh.backwardToForwardDelay
          hh.forwardToBackwardDelay hh.lastStopTime clock).1) ∧
    ((hh.direction ≠ d ∧ hh.direction ≠ Direction.stop) →
      (commandRun fuel hh clock d tgt).trace =
        Event.write hh.neutralPulseWidth ::
          ((reversalDwell hh.direction d hh.backwardToForwardDelay
            hh.forwardToBackwardDelay (some clock) clock).2 ++ [Event.write tgt]) ∧
      (commandRun fuel hh clock d tgt).clock =
        (reversalDwell hh.direction d hh.backwardToForwardDelay
          hh.forwardToBackwardDelay (some clock) clock).1) := by
  constructor
  · intro hstop
    have hcond : ¬ (hh.direction ≠ d ∧ hh.direction ≠ Direction.stop) :=
      fun hc => hc.2 hstop
    simp only [commandRun]
    rw [if_neg hcond, rateLimitSleep_none hh clock hlu]
    constructor <;> simp [graduallySetPulseWidth, rampPhase, hps]
  · intro hcond
    simp only [commandRun]
    rw [if_pos hcond, rateLimitSleep_none hh clock hlu]
    rw [graduallySetPulseWidth_none fuel hh clock hh.neutralPulseWidth hps]
    rw [if_pos rfl]
    constructor <;> simp [graduallySetPulseWidth, rampPhase, hps]

/-- C4 amended: the claim's guard is wrong for the dwell.  In the code only
the ramp-to-neutral is guarded by "currentDirection is non-Stop and differs
from the new direction"; the dwell is waited whenever the entered direction
is Forward (resp. Backward) and the current direction differs from it —
including from `Stop` or the uninitialized sentinel.  Amended statement,
proved here for an accepted changing command with no `pulseStep` and no
pending rate limit: from `Stop` the call still sleeps the dwell
`dwellOf (delayFor) lastStopTime clock` (configured delay minus elapsed
time since the recorded stop, full delay when none is recorded) before the
single target write; from a non-Stop differing direction it first writes
neutral (the ramp-to-neutral), then sleeps the full configured delay (the
just-recorded stop time makes the elapsed time zero); and when the
controller has already been at neutral for at least the configured delay,
the call does not block at all (the final clock equals the entry clock). -/
theorem c4_amended (fuel : Nat) (h : DefaultHandler) (clock : Int) (s : Rat)
    (dir : Direction) (tgt : Nat) (h1 : DefaultHandler)
    (hps : h.pulseStep = none) (hlu : h.lastUpdate = none)
    (hpol : h.isPolarityInverted = false)
    (hs0 : 0 ≤ s) (hs1 : s ≤ 1)
    (hdir : dir = Direction.forward ∨ dir = Direction.backward)
    (hne : h.direction ≠ dir)
    (hcc : computeCommand h s dir = some (tgt, h1))
    (hch : h.pulse ≠ tgt) :
    (h.direction = Direction.stop →
      (setSpeed fuel h clock none s dir).trace =
        [Event.sleep (dwellOf (delayFor h dir) h.lastStopTime clock), Event.write tgt] ∧
      (setSpeed fuel h clock none s dir).clock =
        clock + max (dwellOf (delayFor h dir) h.lastStopTime clock) 0) ∧
    (h.direction ≠ Direction.stop →
      (setSpeed fuel h clock none s dir).trace =
        [Event.write h.neutralPulseWidth, Event.sleep (delayFor h dir), Event.write tgt] ∧
      (setSpeed fuel h clock none s dir).clock = clock + max (delayFor h dir) 0) ∧
    (∀ t : Int, h.direction = Direction.stop → h.lastStopTime = some t →
      delayFor h dir ≤ clock - t →
      (setSpeed fuel h clock none s dir).clock = clock) := by
  have hval := speed_valid hs0 hs1
  have hmain : (h.direction = Direction.stop →
      (setSpeed fuel h clock none s dir).trace =
        [Event.sleep (dwellOf (delayFor h dir) h.lastStopTime clock), Event.write tgt] ∧
      (setSpeed fuel h clock none s dir).clock =
        clock + max (dwellOf (delayFor h dir) h.lastStopTime clock) 0) ∧
      (h.direction ≠ Direction.stop →
      (setSpeed fuel h clock none s dir).trace =
        [Event.write h.neutralPulseWidth, Event.sleep (delayFor h dir), Event.write tgt] ∧
      (setSpeed fuel h clock none s dir).clock = clock + max (delayFor h dir) 0) := by
    rcases hdir with hd | hd <;> subst hd
    · rw [computeCommand_forward h s] at hcc
      have hcc2 : wadd h.neutralPulseWidth
          (u32trunc (((wsub h.maxPulseWidth h.neutralPulseWidth : Nat) : Rat) * s)) = tgt ∧
          ({ h with speed := s } : DefaultHandler) = h1 := by
        constructor
        · exact congrArg Prod.fst (Option.some.inj hcc)
        · exact congrArg Prod.snd (Option.some.inj hcc)
      obtain ⟨htgt, hh1⟩ := hcc2
      have hrun : setSpeed fuel h clock none s Direction.forward =
          commandRun fuel { h with speed := s } clock Direction.forward tgt := by
        unfold setSpeed
        rw [resolve_id h _ hpol]
        rw [setSpeedResolved_run fuel h clock none s Direction.forward
          (wadd h.neutralPulseWidth
            (u32trunc (((wsub h.maxPulseWidth h.neutralPulseWidth : Nat) : Rat) * s)),
           { h with speed := s })
          hval (computeCommand_forward h s) (by simp) (htgt ▸ hch)]
        rw [htgt]
      rw [hrun]
      have hsim := commandRun_simple fuel { h with speed := s } clock Direction.forward tgt hps hlu
      constructor
      · intro hstop
        obtain ⟨htr, hck⟩ := hsim.1 hstop
        rw [htr, hck,
          reversalDwell_enter_forward _ _ _ _ _ (show h.direction ≠ Direction.forward from hne)]
        exact ⟨rfl, rfl⟩
      · intro hstop
        obtain ⟨htr, hck⟩ := hsim.2 ⟨hne, hstop⟩
        rw [htr, hck,
          reversalDwell_enter_forward _ _ _ _ _ (show h.direction ≠ Direction.forward from hne)]
        constructor
        · show _ = [Event.write h.neutralPulseWidth,
            Event.sleep (delayFor h Direction.forward), Event.write tgt]
          rw [delayFor_forward]
          show Event.write h.neutralPulseWidth ::
              ([Event.sleep (dwellOf h.backwardToForwardDelay (some clock) clock)] ++
                [Event.write tgt]) = _
          unfold dwellOf
          norm_num
        · show clock + max (dwellOf h.backwardToForwardDelay (some clock) clock) 0 = _
          rw [delayFor_forward]
          unfold dwellOf
          norm_num
    · rw [computeCommand_backward h s] at hcc
      have hcc2 : wsub h.neutralPulseWidth
          (u32trunc (((wsub h.neutralPulseWidth h.minPulseWidth : Nat) : Rat) * s)) = tgt ∧
          ({ h with speed := -s } : DefaultHandler) = h1 := by
        constructor
        · exact congrArg Prod.fst (Option.some.inj hcc)
        · exact congrArg Prod.snd (Option.some.inj hcc)
      obtain ⟨htgt, hh1⟩ := hcc2
      have hrun : setSpeed fuel h clock none s Direction.backward =
          commandRun fuel { h with speed := -s } clock Direction.backward tgt := by
        unfold setSpeed
        rw [resolve_id h _ hpol]
        rw [setSpeedResolved_run fuel h clock none s Direction.backward
          (wsub h.neutralPulseWidth
            (u32trunc (((wsub h.neutralPulseWidth h.minPulseWidth : Nat) : Rat) * s)),
           { h with speed := -s })
          hval (computeCommand_backward h s) (by simp) (htgt ▸ hch)]
        rw [htgt]
      rw [hrun]
      have hsim := commandRun_simple fuel { h with speed := -s } clock Direction.backward tgt hps hlu
      constructor
      · intro hstop
        obtain ⟨htr, hck⟩ := hsim.1 hstop
        rw [htr, hck,
          reversalDwell_enter_backward _ _ _ _ _ (show h.direction ≠ Direction.backward from hne)]
        exact ⟨rfl, rfl⟩
      · intro hstop
        obtain ⟨htr, hck⟩ := hsim.2 ⟨hne, hstop⟩
        rw [htr, hck,
          reversalDwell_enter_backward _ _ _ _ _ (show h.direction ≠ Direction.backward from hne)]
        constructor
        · show _ = [Event.write h.neutralPulseWidth,
            Event.sleep (delayFor h Direction.backward), Event.write tgt]
          rw [delayFor_backward]
          show Event.write h.neutralPulseWidth ::
              ([Event.sleep (dwellOf h.forwardToBackwardDelay (some clock) clock)] ++
                [Event.write tgt]) = _
          unfold dwellOf
          norm_num
        · show clock + max (dwellOf h.forwardToBackwardDelay (some clock) clock) 0 = _
          rw [delayFor_backward]
          unfold dwellOf
          norm_num
  refine ⟨hmain.1, hmain.2, ?_⟩
  intro t hstop hls hle
  have hc := (hmain.1 hstop).2
  rw [hls] at hc
  have hd0 : dwellOf (delayFor h dir) (some t) clock ≤ 0 := by
    show delayFor h dir - (clock - t) ≤ 0
    omega
  rw [hc, max_eq_right hd0]
  omega

/-- C4 witness: the fresh `tHandler` (uninitialized direction, no recorded
stop) receives `SetSpeed(0.5, Forward)`: neutral write, full
backward-to-forward dwell, target write. -/
theorem c4_witness :
    (setSpeed 9 tHandler 0 none (1/2) Direction.forward).trace =
      [Event.write tHandler.neutralPulseWidth,
       Event.sleep (delayFor tHandler Direction.forward), Event.write 155] ∧
    (setSpeed 9 tHandler 0 none (1/2) Direction.forward).clock =
      0 + max (delayFor tHandler Direction.forward) 0 :=
  (c4_amended 9 tHandler 0 (1/2) Direction.forward 155 { tHandler with speed := 1/2 }
    rfl rfl rfl (by norm_num) (by norm_num) (Or.inl rfl) (by decide)
    (by with_unfolding_all rfl) (by decide)).2.1 (by decide)

/-- The pulse stored after any `setSpeedResolved` stays within the
calibration band if it started there. -/
theorem setSpeedResolved_pulse_bounds (fuel : Nat) (h : DefaultHandler) (clock : Int)
    (g : Option Bool) (s : Rat) (d : Direction)
    (hmn : h.minPulseWidth ≤ h.neutralPulseWidth)
    (hnm : h.neutralPulseWidth ≤ h.maxPulseWidth) (hmx : h.maxPulseWidth < U32)
    (hp1 : h.minPulseWidth ≤ h.pulse) (hp2 : h.pulse ≤ h.maxPulseWidth) :
    h.minPulseWidth ≤ (setSpeedResolved fuel h clock g s d).h.pulse ∧
    (setSpeedResolved fuel h clock g s d).h.pulse ≤ h.maxPulseWidth := by
  by_cases hval : s < 0 ∨ 1 < s
  · rw [setSpeedResolved_invalid fuel h clock g s d hval]
    exact ⟨hp1, hp2⟩
  cases d with
  | dirNil =>
    rw [setSpeedResolved_dirNil fuel h clock g s hval]
    exact ⟨hp1, hp2⟩
  | stop =>
    by_cases hgf : g = some false
    · rw [hgf, setSpeedResolved_gate_disabled fuel h clock s _ _ hval (computeCommand_stop h s)]
      exact ⟨hp1, hp2⟩
    · rw [setSpeedResolved_h_pulse fuel h clock g s _ _ hval (computeCommand_stop h s) hgf]
      exact ⟨hmn, hnm⟩
  | forward =>
    have hs0 : 0 ≤ s := le_of_not_lt (fun hc => hval (Or.inl hc))
    have hs1 : s ≤ 1 := le_of_not_lt (fun hc => hval (Or.inr hc))
    by_cases hgf : g = some false
    · rw [hgf, setSpeedResolved_gate_disabled fuel h clock s _ _ hval (computeCommand_forward h s)]
      exact ⟨hp1, hp2⟩
    · rw [setSpeedResolved_h_pulse fuel h clock g s _ _ hval (computeCommand_forward h s) hgf]
      rw [wsub_eq h.maxPulseWidth h.neutralPulseWidth hnm hmx]
      have hb := u32trunc_mul_le (h.maxPulseWidth - h.neutralPulseWidth) hs1 (s := s)
      rw [wadd_eq _ _ (by omega)]
      omega
  | backward =>
    have hs0 : 0 ≤ s := le_of_not_lt (fun hc => hval (Or.inl hc))
    have hs1 : s ≤ 1 := le_of_not_lt (fun hc => hval (Or.inr hc))
    by_cases hgf : g = some false
    · rw [hgf, setSpeedResolved_gate_disabled fuel h clock s _ _ hval (computeCommand_backward h s)]
      exact ⟨hp1, hp2⟩
    · rw [setSpeedResolved_h_pulse fuel h clock g s _ _ hval (computeCommand_backward h s) hgf]
      rw [wsub_eq h.neutralPulseWidth h.minPulseWidth hmn (by omega)]
      have hb := u32trunc_mul_le (h.neutralPulseWidth - h.minPulseWidth) hs1 (s := s)
      rw [wsub_eq _ _ (by omega) (by omega)]
      omega

/-- C7 amended: the invariant `minPulse ≤ currentPulse ≤ maxPulse` holds for
the stored pulse immediately after a successful construction and is
preserved by every operation (`SetSpeed`, `Stop`, `SetSpeedForward`,
`SetSpeedBackward`) under a valid calibration — but, as the counterexample
shows, it does not extend to every intermediate ramp write: an overshooting
`pulseStep` wraps the `uint32` loop counter past `maxPulseWidth`. -/
theorem c7_amended :
    (∀ (frequency minP neuP maxP : Nat) (inv : Bool) (mF mB : Rat)
       (ps : Option Nat) (b2f f2b : Int) (fuel : Nat) (clock : Int)
       (g : Option Bool) (h₀ : DefaultHandler) (c₀ : Int),
      newDefaultHandler frequency minP neuP maxP inv mF mB ps b2f f2b fuel clock g =
        Except.ok (h₀, c₀) →
      h₀.minPulseWidth ≤ h₀.pulse ∧ h₀.pulse ≤ h₀.maxPulseWidth) ∧
    (∀ (fuel : Nat) (h : DefaultHandler) (clock : Int) (g : Option Bool)
       (s : Rat) (dir : Direction),
      h.minPulseWidth ≤ h.neutralPulseWidth → h.neutralPulseWidth ≤ h.maxPulseWidth →
      h.maxPulseWidth < U32 → h.minPulseWidth ≤ h.pulse → h.pulse ≤ h.maxPulseWidth →
      h.minPulseWidth ≤ (setSpeed fuel h clock g s dir).h.pulse ∧
        (setSpeed fuel h clock g s dir).h.pulse ≤ h.maxPulseWidth) ∧
    (∀ (fuel : Nat) (h : DefaultHandler) (clock : Int) (g : Option Bool),
      h.minPulseWidth ≤ h.neutralPulseWidth → h.neutralPulseWidth ≤ h.maxPulseWidth →
      h.maxPulseWidth < U32 → h.minPulseWidth ≤ h.pulse → h.pulse ≤ h.maxPulseWidth →
      h.minPulseWidth ≤ (stop fuel h clock g).h.pulse ∧
        (stop fuel h clock g).h.pulse ≤ h.maxPulseWidth) ∧
    (∀ (fuel : Nat) (h : DefaultHandler) (clock : Int) (g : Option Bool) (s : Rat),
      h.minPulseWidth ≤ h.neutralPulseWidth → h.neutralPulseWidth ≤ h.maxPulseWidth →
      h.maxPulseWidth < U32 → h.minPulseWidth ≤ h.pulse → h.pulse ≤ h.maxPulseWidth →
      (h.minPulseWidth ≤ (setSpeedForward fuel h clock g s).h.pulse ∧
        (setSpeedForward fuel h clock g s).h.pulse ≤ h.maxPulseWidth) ∧
      (h.minPulseWidth ≤ (setSpeedBackward fuel h clock g s).h.pulse ∧
        (setSpeedBackward fuel h clock g s).h.pulse ≤ h.maxPulseWidth)) := by
  refine ⟨?_, ?_, ?_, ?_⟩
  · intro frequency minP neuP maxP inv mF mB ps b2f f2b fuel clock g h₀ c₀ hok
    rw [newDefaultHandler] at hok
    split at hok
    · exact Except.noConfusion hok
    · dsimp only at hok
      split at hok
      · exact Except.noConfusion hok
      · split at hok
        · exact Except.noConfusion hok
        · split at hok
          · exact Except.noConfusion hok
          · split at hok
            · exact Except.noConfusion hok
            · split at hok
              · exact Except.noConfusion hok
              · rename_i hc1 hc2 hc3 hc4 hc5 hc6
                rw [stop_noop _ _ _ _ rfl] at hok
                have heq := Except.ok.inj hok
                have hh := congrArg Prod.fst heq
                dsimp at hh
                rw [← hh]
                dsimp
                push_neg at hc3
                omega
  · intro fuel h clock g s dir hmn hnm hmx hp1 hp2
    exact setSpeedResolved_pulse_bounds fuel h clock g s _ hmn hnm hmx hp1 hp2
  · intro fuel h clock g hmn hnm hmx hp1 hp2
    exact setSpeedResolved_pulse_bounds fuel h clock g 0 _ hmn hnm hmx hp1 hp2
  · intro fuel h clock g s hmn hnm hmx hp1 hp2
    exact ⟨setSpeedResolved_pulse_bounds fuel h clock g _ _ hmn hnm hmx hp1 hp2,
           setSpeedResolved_pulse_bounds fuel h clock g _ _ hmn hnm hmx hp1 hp2⟩

/-- C7 witness: the freshly constructed `tWrapHandler` satisfies the
invariant, and it is preserved by `SetSpeed(0.5, Forward)` on `tHandler`. -/
theorem c7_witness :
    (tWrapHandler.minPulseWidth ≤ tWrapHandler.pulse ∧
      tWrapHandler.pulse ≤ tWrapHandler.maxPulseWidth) ∧
    (tHandler.minPulseWidth ≤ (setSpeed 9 tHandler 0 none (1/2) Direction.forward).h.pulse ∧
      (setSpeed 9 tHandler 0 none (1/2) Direction.forward).h.pulse ≤ tHandler.maxPulseWidth) := by
  have hcons := c7_amended.1 50 1400 1500 1600 false 1 1 (some 2147483698)
    100000 100000 9 0 none tWrapHandler 0 (by with_unfolding_all rfl)
  have hop := c7_amended.2.1 9 tHandler 0 none (1/2) Direction.forward
    (by decide) (by decide) (by decide) (by decide) (by decide)
  exact ⟨hcons, hop⟩

end ESCMotor
